import Mathlib

/-!
# Verification of the `pru` diagnostic resolution pipeline

Shallow embedding of the Rust crate's core pipeline
(`pointer_index.rs`, `line_number.rs`, `json_pointer.rs`,
`diagnostic_range.rs`, `parsing.rs`, `validation.rs`, `lib.rs`).

Modelling conventions:
* Rust `&str` / `String` values are modelled as `List Char`; Rust byte
  indices into UTF-8 text are modelled as character indices (for the
  algorithms in question every index produced by `str::find` lies on a
  character boundary, and all the verified properties are stated at the
  level of character positions and newline counts).
* `u32` / `usize` are modelled as `Nat`; the only subtractions the code
  performs are `u32::saturating_sub` (which is exactly truncated `Nat`
  subtraction) and `error.line() as u32 - 1` where the external parser
  guarantees `line >= 1`.
* The external collaborators are inputs to the embedded functions:
  `serde_json::from_str`'s outcome is a `SerdeResult` argument and
  `jsonschema::validator_for`'s outcome is an
  `Option (JsonValue -> List ValidationError)` argument (`none` models a
  schema that fails to compile; a compiled validator is modelled by the
  list of violations it enumerates, in enumeration order).
* A Rust panic (`expect`) returns no value at all; a function that can
  panic is embedded with an `Option` layer whose `none` means "panicked".
-/

/-- `tower_lsp::lsp_types::Position`: zero-based line/character. -/
structure Position where
  line : Nat
  character : Nat
deriving DecidableEq

/-- `tower_lsp::lsp_types::Range`.  The Rust field `end` is a Lean keyword,
so it is called `stop` here. -/
structure Range where
  start : Position
  stop : Position
deriving DecidableEq

/-- `Range::default()`: all coordinates zero. -/
def Range.default : Range :=
  { start := { line := 0, character := 0 }, stop := { line := 0, character := 0 } }

/-- The only severity the pipeline ever emits. -/
inductive DiagnosticSeverity where
  | ERROR
deriving DecidableEq

/-- The fields of `tower_lsp::lsp_types::Diagnostic` that the pipeline
sets (all others are left at their `Default::default()` and carry no
information relevant to the specification). -/
structure Diagnostic where
  range : Range
  severity : Option DiagnosticSeverity
  message : List Char
  source : Option (List Char)
deriving DecidableEq

/-- `serde_json::Value`, abstractly (numbers simplified to `Int`; the
pipeline never inspects values, it only passes them to the validator). -/
inductive JsonValue where
  | null
  | bool (b : Bool)
  | num (n : Int)
  | str (s : List Char)
  | arr (elts : List JsonValue)
  | obj (members : List (List Char × JsonValue))

/-- `error.rs`: `SchemaValidationError`.  Payloads of external error types
are modelled as their display strings. -/
inductive SchemaValidationError where
  | JsonParseError (msg : List Char)
  | SchemaFileReadError (msg : List Char)
  | InvalidSchemaError (msg : List Char)
  | ValidationFailed (n : Nat)
  | ValidatorCompilationError (msg : List Char)
  | JsonPointerResolutionError (msg : List Char)
  | PositionConversionError (line column : Nat)
  | InvalidJsonPointer (msg : List Char)
  | RangeCalculationError (msg : List Char)
  | EmptyFileContents
  | Utf8Error (msg : List Char)
  | DiagnosticGenerationError (msg : List Char)
deriving DecidableEq

/-- The position report carried by a `serde_json::Error`: a 1-based line,
a column, and a display message. -/
structure SerdeError where
  line : Nat
  column : Nat
  message : List Char
deriving DecidableEq

/-- Outcome of the external `serde_json::from_str` call. -/
inductive SerdeResult where
  | ok (value : JsonValue)
  | err (e : SerdeError)

/-- `pat` matches `l` at position 0 (Rust substring match at an offset). -/
def leadsWith : List Char → List Char → Bool
  | [], _ => true
  | _ :: _, [] => false
  | a :: as, b :: bs => a == b && leadsWith as bs

/-- Rust `str::find(pat)`: index of the first occurrence of `pat` as a
literal substring, `none` when absent.  The empty pattern matches at 0. -/
def findSub (pat : List Char) : List Char → Option Nat
  | [] => if pat = [] then some 0 else none
  | c :: rest =>
    if leadsWith pat (c :: rest) then some 0
    else (findSub pat rest).map (· + 1)

/-- Rust `str::split('/')` collected to a `Vec`: the empty string yields
one empty piece, and every `'/'` starts a new piece. -/
def splitOnSlash : List Char → List (List Char)
  | [] => [[]]
  | c :: rest =>
    let tail := splitOnSlash rest
    if c = '/' then [] :: tail
    else
      match tail with
      | [] => [[c]]
      | s :: ss => (c :: s) :: ss

namespace pointer_index

/-- One iteration of the loop body of `pointer_index::calculate`
(`src/pointer_index.rs`): `temp_index` is `find(path_item).unwrap_or(0)`,
the cursor grows by `temp_index`, and
`stacked_file_contents.split_off(temp_index)` keeps the suffix starting
at the match. -/
def step (st : Nat × List Char) (path_item : List Char) : Nat × List Char :=
  let temp_index := (findSub path_item st.2).getD 0
  (st.1 + temp_index, st.2.drop temp_index)

/-- `pointer_index::calculate` (`src/pointer_index.rs`): split the JSON
pointer on `'/'` and fold the loop body over the path items, starting
from cursor 0 and the whole document as the remaining suffix. -/
def calculate (json_pointer raw_file_contents : List Char) : Nat :=
  ((splitOnSlash json_pointer).foldl step (0, raw_file_contents)).1

end pointer_index

namespace line_number

/-- `line_number::from_index` (`src/line_number.rs`): clamp the index to
the text length and count `'\n'` characters strictly before it. -/
def from_index (raw_file_contents : List Char) (index : Nat) : Nat :=
  let safe_index := min index raw_file_contents.length
  ((raw_file_contents.take safe_index).filter (fun x => x = '\n')).length

end line_number

namespace json_pointer

/-- `json_pointer::into_range` (`src/json_pointer.rs`): resolve the
pointer to an offset, convert it to a line number, and return a
zero-width range at character 0 on that line.  Always `some`. -/
def into_range (jp raw_file_contents : List Char) : Option Range :=
  let index_summation := pointer_index.calculate jp raw_file_contents
  let lineNumber := line_number.from_index raw_file_contents index_summation
  some { start := { line := lineNumber, character := 0 },
         stop := { line := lineNumber, character := 0 } }

end json_pointer

namespace diagnostic_range

/-- The `match` arms of `diagnostic_range::from_pointer`
(`src/diagnostic_range.rs`): a resolved range is returned as is, `None`
falls back to `Range::default()`. -/
def from_pointer_aux : Option Range → Range
  | some range => range
  | none => Range.default

/-- `diagnostic_range::from_pointer` (`src/diagnostic_range.rs`). -/
def from_pointer (jp file_contents : List Char) : Range :=
  from_pointer_aux (json_pointer.into_range jp file_contents)

end diagnostic_range

namespace parsing

/-- `parsing::ParseErrorDiagnostic` (`src/parsing.rs`): line already made
0-based, column as reported. -/
structure ParseErrorDiagnostic where
  line : Nat
  column : Nat
  message : List Char
deriving DecidableEq

/-- `impl From of serde_json::Error for ParseErrorDiagnostic`
(`src/parsing.rs`): `(error.line() as u32 - 1, error.column() as u32)`.
`serde_json` reports `line >= 1` for parse failures, so the `Nat`
subtraction agrees with the `u32` subtraction. -/
def ParseErrorDiagnostic.from_serde (error : SerdeError) : ParseErrorDiagnostic :=
  { line := error.line - 1, column := error.column, message := error.message }

/-- `impl From of ParseErrorDiagnostic for Diagnostic`
(`src/parsing.rs`): range from `{line, 0}` to
`{line, column.saturating_sub(1)}`, severity ERROR, `source` left at its
default `None`. -/
def ParseErrorDiagnostic.into_diagnostic (diag : ParseErrorDiagnostic) : Diagnostic :=
  { range := { start := { line := diag.line, character := 0 },
               stop := { line := diag.line, character := diag.column - 1 } },
    severity := some DiagnosticSeverity.ERROR,
    message := diag.message,
    source := none }

/-- `parsing::ParsedContent` (`src/parsing.rs`). -/
inductive ParsedContent where
  | Valid (json : JsonValue)
  | ParseError (diagnostic : Diagnostic)

/-- `ParsedContent::new` (`src/parsing.rs`): both the success arm and the
failure arm return `Ok`; the external parse outcome is the argument. -/
def ParsedContent.new (parse_result : SerdeResult) :
    Except SchemaValidationError ParsedContent :=
  match parse_result with
  | SerdeResult.ok json => Except.ok (ParsedContent.Valid json)
  | SerdeResult.err e =>
    Except.ok (ParsedContent.ParseError
      (ParseErrorDiagnostic.into_diagnostic (ParseErrorDiagnostic.from_serde e)))

end parsing

namespace validation

/-- The data of a `jsonschema::ValidationError` as consumed by the
pipeline: its `instance_path().to_string()` and its display string. -/
structure ValidationError where
  instance_path : List Char
  error_message : List Char
deriving DecidableEq

/-- `validation::ValidationDiagnostic::new` (`src/validation.rs`). -/
structure ValidationDiagnostic where
  instance_path : List Char
  error_message : List Char
  range : Range
deriving DecidableEq

/-- `ValidationDiagnostic::new` (`src/validation.rs`): record the path and
message and resolve the range through `diagnostic_range::from_pointer`. -/
def ValidationDiagnostic.new (error : ValidationError) (file_contents : List Char) :
    ValidationDiagnostic :=
  { instance_path := error.instance_path,
    error_message := error.error_message,
    range := diagnostic_range.from_pointer error.instance_path file_contents }

/-- `format!("Path \x7b\x7d, Error: \x7b\x7d", path, msg)`. -/
def format_message (path msg : List Char) : List Char :=
  ("Path ".toList) ++ path ++ (", Error: ".toList) ++ msg

/-- `impl From of ValidationDiagnostic for Diagnostic`
(`src/validation.rs`). -/
def ValidationDiagnostic.into_diagnostic (diag : ValidationDiagnostic) : Diagnostic :=
  { range := diag.range,
    severity := some DiagnosticSeverity.ERROR,
    message := format_message diag.instance_path diag.error_message,
    source := some diag.instance_path }

/-- `SchemaValidator::validate` (`src/validation.rs`).  The external
`jsonschema::validator_for` outcome is the `compiled` argument: `none`
models a schema that fails to compile, on which the code calls
`.expect(..)` and panics — modelled by the outer `none` (no value
returned).  A compiled validator is the function listing the violations
`iter_errors` enumerates, in order; each is mapped to a diagnostic. -/
def SchemaValidator.validate
    (compiled : Option (JsonValue → List ValidationError))
    (file_as_json : JsonValue) (file_contents : List Char) :
    Option (Except SchemaValidationError (List Diagnostic)) :=
  match compiled with
  | none => none
  | some validator =>
    some (Except.ok ((validator file_as_json).map
      (fun e => ValidationDiagnostic.into_diagnostic
        (ValidationDiagnostic.new e file_contents))))

end validation

/-- `validate_liberally` (`src/lib.rs`): parse, then either return the
single parse-error diagnostic or run schema validation.  The `?` on
`ParsedContent::new` is the `Except.error` arm (never taken, since `new`
always returns `Ok`). -/
def validate_liberally
    (compiled : Option (JsonValue → List validation.ValidationError))
    (parse_result : SerdeResult) (file_contents : List Char) :
    Option (Except SchemaValidationError (List Diagnostic)) :=
  match parsing.ParsedContent.new parse_result with
  | Except.error e => some (Except.error e)
  | Except.ok (parsing.ParsedContent.Valid json) =>
    validation.SchemaValidator.validate compiled json file_contents
  | Except.ok (parsing.ParsedContent.ParseError diagnostic) =>
    some (Except.ok [diagnostic])

/-! ## Specification-side definitions -/

/-- One segment step of the PointerLocator algorithm as the specification
states it (spec 4.2): an empty segment is a no-op; a found segment adds
the relative match index to the cursor and shrinks the suffix to start at
the match; a non-empty segment that is not found leaves cursor and suffix
unchanged. -/
def locate_step (st : Nat × List Char) (s : List Char) : Nat × List Char :=
  if s = [] then st
  else
    match findSub s st.2 with
    | some i => (st.1 + i, st.2.drop i)
    | none => st

/-- `PointerLocator.locate` as the specification states it (spec 4.2):
split the path on `'/'`, process the segments in order from cursor 0 and
the whole document, and always return `some cursor`. -/
def locate_spec (path text : List Char) : Option Nat :=
  some (((splitOnSlash path).foldl locate_step (0, text)).1)

/-- Count of `'\n'` characters in a text (spec-side measure used by the
line-count invariant of spec section 3). -/
def newline_count (l : List Char) : Nat :=
  (l.filter (fun x => x = '\n')).length

/-- Rust `str::lines().count()`: total line count of a document.  The
empty text has 0 lines; otherwise one line per newline plus a final line
when the text does not end with a newline. -/
def linesCount (text : List Char) : Nat :=
  if text = [] then 0
  else newline_count text + (if text.getLast? = some '\n' then 0 else 1)

/-- Modelled from the spec: the external JSON parser (`serde_json`, a
collaborator outside `src/`) reports a 1-based line for an error at
character position `pos` of the document (spec 4.4: "the underlying
parser reports a 1-based line and column"). -/
def reported_line (text : List Char) (pos : Nat) : Nat :=
  1 + newline_count (text.take (min pos text.length))

/-- The parse-error diagnostic the pipeline builds for a parser report at
position `pos` (line via `reported_line`, an arbitrary reported column
and message). -/
def parse_error_diag_at (text : List Char) (pos col : Nat) (msg : List Char) : Diagnostic :=
  parsing.ParseErrorDiagnostic.into_diagnostic
    (parsing.ParseErrorDiagnostic.from_serde
      { line := reported_line text pos, column := col, message := msg })

/-! ## Helper lemmas -/

lemma leadsWith_nil (l : List Char) : leadsWith [] l = true := by
  cases l <;> rfl

lemma findSub_nil_pat (l : List Char) : findSub [] l = some 0 := by
  cases l with
  | nil => rfl
  | cons c rest => simp [findSub, leadsWith_nil]

lemma findSub_nil_text {pat : List Char} {j : Nat} (h : findSub pat [] = some j) :
    pat = [] ∧ j = 0 := by
  by_cases hp : pat = []
  · subst hp
    simp [findSub] at h
    exact ⟨rfl, h.symm⟩
  · simp [findSub, hp] at h

lemma findSub_lt {pat : List Char} :
    ∀ {l : List Char} {j : Nat}, l ≠ [] → findSub pat l = some j → j < l.length := by
  intro l
  induction l with
  | nil => intro j h; exact absurd rfl h
  | cons c rest ih =>
    intro j _ hf
    by_cases hp : leadsWith pat (c :: rest) = true
    · have hj : j = 0 := by
        simp [findSub, hp] at hf
        omega
      subst hj
      simp
    · simp [findSub, hp] at hf
      obtain ⟨j1, hj1, hj⟩ := hf
      cases rest with
      | nil =>
        obtain ⟨hpat, -⟩ := findSub_nil_text hj1
        subst hpat
        exact absurd (leadsWith_nil (c :: [])) hp
      | cons d ds =>
        have h2 := ih (by simp) hj1
        simp only [List.length_cons] at h2 ⊢
        omega

lemma findSub_getD_le (pat l : List Char) : (findSub pat l).getD 0 ≤ l.length := by
  cases hf : findSub pat l with
  | none => simp
  | some j =>
    cases l with
    | nil =>
      obtain ⟨-, hj⟩ := findSub_nil_text hf
      simp [hj]
    | cons c rest =>
      have h2 := findSub_lt (by simp) hf
      simp only [Option.getD_some]
      omega

lemma findSub_getD_lt (pat : List Char) {l : List Char} (h : l ≠ []) :
    (findSub pat l).getD 0 < l.length := by
  cases hf : findSub pat l with
  | none =>
    simp
    exact List.length_pos.mpr h
  | some j =>
    simpa using findSub_lt h hf

lemma step_invariant (st : Nat × List Char) (s : List Char) :
    (pointer_index.step st s).1 + (pointer_index.step st s).2.length
      = st.1 + st.2.length := by
  have h := findSub_getD_le s st.2
  simp only [pointer_index.step, List.length_drop]
  omega

lemma foldl_step_invariant (segs : List (List Char)) (st : Nat × List Char) :
    (segs.foldl pointer_index.step st).1 + (segs.foldl pointer_index.step st).2.length
      = st.1 + st.2.length := by
  induction segs generalizing st with
  | nil => rfl
  | cons s rest ih =>
    rw [List.foldl_cons, ih, step_invariant]

lemma step_ne_nil {st : Nat × List Char} (h : st.2 ≠ []) (s : List Char) :
    (pointer_index.step st s).2 ≠ [] := by
  have hlt := findSub_getD_lt s h
  simp only [pointer_index.step]
  intro hc
  have := congrArg List.length hc
  simp only [List.length_drop, List.length_nil] at this
  omega

lemma foldl_step_ne_nil (segs : List (List Char)) {st : Nat × List Char} (h : st.2 ≠ []) :
    (segs.foldl pointer_index.step st).2 ≠ [] := by
  induction segs generalizing st with
  | nil => exact h
  | cons s rest ih =>
    rw [List.foldl_cons]
    exact ih (step_ne_nil h s)

lemma calculate_le (ptr text : List Char) :
    pointer_index.calculate ptr text ≤ text.length := by
  have h : ((splitOnSlash ptr).foldl pointer_index.step (0, text)).1
      + ((splitOnSlash ptr).foldl pointer_index.step (0, text)).2.length
      = 0 + text.length :=
    foldl_step_invariant (splitOnSlash ptr) (0, text)
  simp only [pointer_index.calculate]
  omega

lemma calculate_lt (ptr : List Char) {text : List Char} (h : text ≠ []) :
    pointer_index.calculate ptr text < text.length := by
  have h1 : ((splitOnSlash ptr).foldl pointer_index.step (0, text)).1
      + ((splitOnSlash ptr).foldl pointer_index.step (0, text)).2.length
      = 0 + text.length :=
    foldl_step_invariant (splitOnSlash ptr) (0, text)
  have h2 : ((splitOnSlash ptr).foldl pointer_index.step (0, text)).2 ≠ [] :=
    foldl_step_ne_nil (splitOnSlash ptr) h
  have h3 : 0 < ((splitOnSlash ptr).foldl pointer_index.step (0, text)).2.length :=
    List.length_pos.mpr h2
  simp only [pointer_index.calculate]
  omega

lemma step_eq_locate_step (st : Nat × List Char) (s : List Char) :
    pointer_index.step st s = locate_step st s := by
  by_cases hs : s = []
  · subst hs
    simp [pointer_index.step, locate_step, findSub_nil_pat]
  · simp only [pointer_index.step, locate_step, hs, if_false]
    cases hf : findSub s st.2 with
    | none => simp [hf]
    | some i => simp [hf]

lemma step_funext : pointer_index.step = locate_step :=
  funext fun st => funext fun s => step_eq_locate_step st s

lemma newline_count_sublist {l1 l2 : List Char} (h : List.Sublist l1 l2) :
    newline_count l1 ≤ newline_count l2 :=
  (h.filter _).length_le

lemma newline_count_take_mono (l : List Char) {i j : Nat} (h : i ≤ j) :
    newline_count (l.take i) ≤ newline_count (l.take j) := by
  have h1 : l.take i = (l.take j).take i := by
    rw [List.take_take, min_eq_left h]
  rw [h1]
  exact newline_count_sublist (List.take_sublist _ _)

lemma from_index_eq_newline_count (text : List Char) (idx : Nat) :
    line_number.from_index text idx = newline_count (text.take (min idx text.length)) := rfl

lemma take_line_lt_linesCount {text : List Char} {idx : Nat}
    (hne : text ≠ []) (hidx : idx < text.length) :
    newline_count (text.take idx) < linesCount text := by
  rw [linesCount, if_neg hne]
  by_cases hlast : text.getLast? = some '\n'
  · rw [if_pos hlast]
    obtain ⟨l1, hdec⟩ : ∃ l1, text = l1 ++ ['\n'] := by
      refine ⟨text.dropLast, ?_⟩
      have hl : text.getLast hne = '\n' := by
        rw [List.getLast?_eq_getLast_of_ne_nil hne] at hlast
        exact Option.some.inj hlast
      rw [← hl]
      exact (List.dropLast_append_getLast hne).symm
    subst hdec
    have hlen : idx ≤ l1.length := by
      rw [List.length_append, List.length_singleton] at hidx
      omega
    rw [List.take_append_of_le_length hlen]
    have h1 : newline_count (l1.take idx) ≤ newline_count l1 :=
      newline_count_sublist (List.take_sublist _ _)
    have h2 : newline_count (l1 ++ ['\n']) = newline_count l1 + 1 := by
      rw [newline_count, newline_count, List.filter_append, List.length_append]
      simp
    omega
  · rw [if_neg hlast]
    have h1 : newline_count (text.take idx) ≤ newline_count text :=
      newline_count_sublist (List.take_sublist _ _)
    omega

lemma take_line_lt_linesCount_no_trailing {text : List Char} (idx : Nat)
    (hne : text ≠ []) (hlast : text.getLast? ≠ some '\n') :
    newline_count (text.take idx) < linesCount text := by
  rw [linesCount, if_neg hne, if_neg hlast]
  have h1 : newline_count (text.take idx) ≤ newline_count text :=
    newline_count_sublist (List.take_sublist _ _)
  omega

/-- Is a pipeline outcome the `Err` variant of the `Result`?  (`none` is
a panic, not a `Result` value.) -/
def is_err_result : Option (Except SchemaValidationError (List Diagnostic)) → Bool
  | some (Except.error _) => true
  | _ => false

/-! ## Claims -/

/-- Claim C1: `pointer_index.calculate`, wrapped by
`json_pointer.into_range`, follows exactly the specified per-segment
algorithm (`locate_spec`): the path is split on `'/'`; a found segment
advances the cursor by the relative match index and shrinks the suffix to
start at the match, keeping the match; a non-empty segment that is not
found leaves cursor and suffix unchanged; an empty segment is a no-op;
the result is always `some cursor`, and the empty path yields
`some 0`. -/
theorem claim_C1_pointer_locator_follows_spec (ptr text : List Char) :
    some (pointer_index.calculate ptr text) = locate_spec ptr text ∧
    (json_pointer.into_range ptr text).isSome = true ∧
    locate_spec [] text = some 0 ∧
    pointer_index.calculate [] text = 0 := by
  have hmain : ∀ p t : List Char, some (pointer_index.calculate p t) = locate_spec p t := by
    intro p t
    simp only [pointer_index.calculate, locate_spec, step_funext]
  refine ⟨hmain ptr text, rfl, rfl, ?_⟩
  have h := (hmain [] text).trans (rfl : locate_spec [] text = some 0)
  exact Option.some.inj h

/-- Claim C10: after every prefix of the segment iterations the locator
invariant `cursor + length remaining = length text` holds; hence the
final offset is at most `length text`, and the clamp
`min offset (length text)` inside `line_number.from_index` never
truncates an offset produced by the locator. -/
theorem claim_C10_cursor_invariant (ptr text : List Char) (n : Nat) :
    (((splitOnSlash ptr).take n).foldl pointer_index.step (0, text)).1
      + (((splitOnSlash ptr).take n).foldl pointer_index.step (0, text)).2.length
      = text.length ∧
    pointer_index.calculate ptr text ≤ text.length ∧
    min (pointer_index.calculate ptr text) text.length
      = pointer_index.calculate ptr text ∧
    line_number.from_index text (pointer_index.calculate ptr text)
      = ((text.take (pointer_index.calculate ptr text)).filter (fun x => x = '\n')).length := by
  have h1 : (((splitOnSlash ptr).take n).foldl pointer_index.step (0, text)).1
      + (((splitOnSlash ptr).take n).foldl pointer_index.step (0, text)).2.length
      = 0 + text.length := foldl_step_invariant _ _
  have h2 := calculate_le ptr text
  refine ⟨by omega, h2, min_eq_left h2, ?_⟩
  rw [from_index_eq_newline_count, min_eq_left h2]
  rfl

/-- Claim C3: `diagnostic_range.from_pointer` never fails: when the
locator yields an offset it returns the zero-width range with both
endpoints at character 0 on line `line_number.from_index text offset`,
and on `None` (the fallback arm) it returns the default all-zero
range. -/
theorem claim_C3_range_resolver (ptr text : List Char) :
    diagnostic_range.from_pointer ptr text =
      { start := { line := line_number.from_index text (pointer_index.calculate ptr text),
                   character := 0 },
        stop := { line := line_number.from_index text (pointer_index.calculate ptr text),
                  character := 0 } } ∧
    diagnostic_range.from_pointer_aux none = Range.default ∧
    Range.default =
      { start := { line := 0, character := 0 }, stop := { line := 0, character := 0 } } :=
  ⟨rfl, rfl, rfl⟩

/-- Claim C4: `line_number.from_index` clamps the offset to
`min offset (length text)` and returns the number of `'\n'` characters
strictly before it; offset 0 yields 0 and any offset at least the text
length yields the total newline count.  It is a total function. -/
theorem claim_C4_line_index (text : List Char) (offset k : Nat) :
    line_number.from_index text offset
      = ((text.take (min offset text.length)).filter (fun x => x = '\n')).length ∧
    line_number.from_index text 0 = 0 ∧
    line_number.from_index text (text.length + k)
      = (text.filter (fun x => x = '\n')).length := by
  refine ⟨rfl, ?_, ?_⟩
  · simp [line_number.from_index]
  · have hmin : min (text.length + k) text.length = text.length :=
      Nat.min_eq_right (Nat.le_add_right _ _)
    simp [line_number.from_index, hmin, List.take_length]

/-- Claim C2: for every document whose JSON parse fails, the pipeline
returns `Ok` with exactly one diagnostic whose `source` is absent, whose
range starts at line `reported line - 1` character 0, and whose range end
character is `reported column - 1` by saturating subtraction; no schema
validation happens (the result is the same for every `compiled`
argument, including a schema that fails to compile). -/
theorem claim_C2_parse_error_shape
    (compiled : Option (JsonValue → List validation.ValidationError))
    (e : SerdeError) (text : List Char) (h : 1 ≤ e.line) :
    validate_liberally compiled (SerdeResult.err e) text =
      some (Except.ok
        [{ range := { start := { line := e.line - 1, character := 0 },
                      stop := { line := e.line - 1, character := e.column - 1 } },
           severity := some DiagnosticSeverity.ERROR,
           message := e.message,
           source := none }]) ∧
    (e.line - 1) + 1 = e.line ∧
    (e.column = 0 → e.column - 1 = 0) := by
  refine ⟨rfl, by omega, fun hc => by omega⟩

/-- Witness for claim C2 at a concrete failing parse report. -/
theorem claim_C2_parse_error_shape_witness :
    validate_liberally none (SerdeResult.err { line := 1, column := 0, message := ['x'] }) [] =
      some (Except.ok
        [{ range := { start := { line := 0, character := 0 },
                      stop := { line := 0, character := 0 } },
           severity := some DiagnosticSeverity.ERROR,
           message := ['x'],
           source := none }]) ∧
    (0 : Nat) + 1 = 1 ∧
    ((0 : Nat) = 0 → (0 : Nat) - 1 = 0) :=
  claim_C2_parse_error_shape none { line := 1, column := 0, message := ['x'] } [] (by decide)

/-- Claim C5: for a parseable document and a compiling schema, the list
the pipeline returns is exactly the validator's violations mapped in
enumeration order to diagnostics with message
`"Path " ++ p ++ ", Error: " ++ d`, severity ERROR and
`source = some p`; the syntax-error shape (absent `source`) never occurs
in it. -/
theorem claim_C5_validation_diagnostic_shape
    (v : JsonValue → List validation.ValidationError) (json : JsonValue)
    (text : List Char) (l : List Diagnostic)
    (h : validate_liberally (some v) (SerdeResult.ok json) text = some (Except.ok l)) :
    l = (v json).map (fun err =>
      { range := diagnostic_range.from_pointer err.instance_path text,
        severity := some DiagnosticSeverity.ERROR,
        message := validation.format_message err.instance_path err.error_message,
        source := some err.instance_path }) ∧
    l.all (fun d => d.source.isSome) = true := by
  have heq : validate_liberally (some v) (SerdeResult.ok json) text
      = some (Except.ok ((v json).map (fun err =>
        ({ range := diagnostic_range.from_pointer err.instance_path text,
           severity := some DiagnosticSeverity.ERROR,
           message := validation.format_message err.instance_path err.error_message,
           source := some err.instance_path } : Diagnostic)))) := rfl
  rw [heq] at h
  have h2 := Option.some.inj h
  have hl := (Except.ok.inj h2).symm
  refine ⟨hl, ?_⟩
  rw [hl, List.all_eq_true]
  intro d hd
  obtain ⟨err, -, hde⟩ := List.mem_map.mp hd
  rw [← hde]
  rfl

/-- Witness for claim C5 at a concrete validator that reports one
violation at path `/b`. -/
theorem claim_C5_validation_diagnostic_shape_witness :
    [({ range := { start := { line := 0, character := 0 },
                   stop := { line := 0, character := 0 } },
        severity := some DiagnosticSeverity.ERROR,
        message := "Path /b, Error: m".toList,
        source := some ['/', 'b'] } : Diagnostic)] =
      ((fun _ : JsonValue =>
        [({ instance_path := ['/', 'b'], error_message := ['m'] } :
          validation.ValidationError)]) JsonValue.null).map (fun err =>
        { range := diagnostic_range.from_pointer err.instance_path ['{'],
          severity := some DiagnosticSeverity.ERROR,
          message := validation.format_message err.instance_path err.error_message,
          source := some err.instance_path }) ∧
    [({ range := { start := { line := 0, character := 0 },
                   stop := { line := 0, character := 0 } },
        severity := some DiagnosticSeverity.ERROR,
        message := "Path /b, Error: m".toList,
        source := some ['/', 'b'] } : Diagnostic)].all (fun d => d.source.isSome) = true :=
  claim_C5_validation_diagnostic_shape
    (fun _ => [{ instance_path := ['/', 'b'], error_message := ['m'] }])
    JsonValue.null ['{'] _ rfl

/-- Claim C6 counterexample: with a schema that fails to compile and a
parseable document, the pipeline does not return the `Err` variant of its
`Result` — it panics (`expect` in `SchemaValidator::validate`), modelled
as no returned value at all. -/
theorem claim_C6_counterexample :
    validate_liberally none (SerdeResult.ok JsonValue.null) [] = none ∧
    is_err_result (validate_liberally none (SerdeResult.ok JsonValue.null) []) = false :=
  ⟨rfl, rfl⟩

/-- Claim C6 (amended): schema compilation failure is surfaced as a panic
(`expect`), not as the `Err` variant and not as a diagnostic in the `Ok`
list: when parsing succeeded and the schema does not compile, the
embedded run yields no `Result` value at all. -/
theorem claim_C6_compilation_failure_panics (json : JsonValue) (text : List Char) :
    validation.SchemaValidator.validate none json text = none ∧
    validate_liberally none (SerdeResult.ok json) text = none ∧
    is_err_result (validate_liberally none (SerdeResult.ok json) text) = false :=
  ⟨rfl, rfl, rfl⟩

/-- Claim C8: the pipeline returns normally on malformed or empty input:
any failing parse — under any schema, even one that does not compile —
yields `Ok` with exactly the syntax-error diagnostic, and any successful
parse under a compiling schema yields an `Ok` diagnostic list. -/
theorem claim_C8_total_on_bad_input
    (compiled : Option (JsonValue → List validation.ValidationError))
    (e : SerdeError) (v : JsonValue → List validation.ValidationError)
    (json : JsonValue) (text : List Char) :
    validate_liberally compiled (SerdeResult.err e) text =
      some (Except.ok [parsing.ParseErrorDiagnostic.into_diagnostic
        (parsing.ParseErrorDiagnostic.from_serde e)]) ∧
    (validate_liberally (some v) (SerdeResult.ok json) text).isSome = true ∧
    validate_liberally (some v) (SerdeResult.ok json) text =
      some (Except.ok ((v json).map (fun err =>
        validation.ValidationDiagnostic.into_diagnostic
          (validation.ValidationDiagnostic.new err text)))) :=
  ⟨rfl, rfl, rfl⟩

/-- Claim C9: determinism and idempotence: the embedded pipeline is a
pure function of (compiled schema, parse outcome, document text) — two
calls on equal inputs give deep-equal outputs, diagnostic order
included.  (The Rust pipeline modules thread no state between calls.) -/
theorem claim_C9_deterministic
    (c1 c2 : Option (JsonValue → List validation.ValidationError))
    (p1 p2 : SerdeResult) (t1 t2 : List Char)
    (hc : c1 = c2) (hp : p1 = p2) (ht : t1 = t2) :
    validate_liberally c1 p1 t1 = validate_liberally c2 p2 t2 := by
  rw [hc, hp, ht]

/-- Witness for claim C9 at a concrete repeated call. -/
theorem claim_C9_deterministic_witness :
    validate_liberally none (SerdeResult.err { line := 1, column := 1, message := [] }) [] =
      validate_liberally none (SerdeResult.err { line := 1, column := 1, message := [] }) [] :=
  claim_C9_deterministic none none
    (SerdeResult.err { line := 1, column := 1, message := [] })
    (SerdeResult.err { line := 1, column := 1, message := [] })
    [] [] rfl rfl rfl

/-- Claim C7 (amended): every pipeline diagnostic has
`start.line = end.line` (hence `start.line ≤ end.line`); for a nonempty
document a pointer-resolved diagnostic satisfies
`start.line < linesCount text`; a parse-error diagnostic for a report at
a position inside the document satisfies
`start.line ≤ newline_count text`, and is `< linesCount text` whenever
the document does not end with a newline — with a trailing newline an
EOF report can reach exactly `linesCount text` (see the
counterexample). -/
theorem claim_C7_diagnostic_line_bounds (text ptr : List Char) (pos col : Nat)
    (msg : List Char) (hne : text ≠ []) (hpos : pos ≤ text.length) :
    (diagnostic_range.from_pointer ptr text).start.line
      = (diagnostic_range.from_pointer ptr text).stop.line ∧
    (diagnostic_range.from_pointer ptr text).start.line < linesCount text ∧
    (parse_error_diag_at text pos col msg).range.start.line
      = (parse_error_diag_at text pos col msg).range.stop.line ∧
    (parse_error_diag_at text pos col msg).range.start.line ≤ newline_count text ∧
    (text.getLast? ≠ some '\n' →
      (parse_error_diag_at text pos col msg).range.start.line < linesCount text) := by
  have hc := calculate_lt ptr hne
  have hline : (diagnostic_range.from_pointer ptr text).start.line
      = newline_count (text.take (pointer_index.calculate ptr text)) := by
    show line_number.from_index text (pointer_index.calculate ptr text) = _
    rw [from_index_eq_newline_count, min_eq_left (le_of_lt hc)]
  have hparse : (parse_error_diag_at text pos col msg).range.start.line
      = newline_count (text.take pos) := by
    show reported_line text pos - 1 = _
    rw [reported_line, min_eq_left hpos]
    omega
  refine ⟨rfl, ?_, rfl, ?_, ?_⟩
  · rw [hline]
    exact take_line_lt_linesCount hne hc
  · rw [hparse]
    exact newline_count_sublist (List.take_sublist _ _)
  · intro hlast
    rw [hparse]
    exact take_line_lt_linesCount_no_trailing pos hne hlast

/-- Witness for claim C7 (amended) on the one-character document `"a"`
with a parse report at position 0. -/
theorem claim_C7_diagnostic_line_bounds_witness :
    (diagnostic_range.from_pointer [] ['a']).start.line < linesCount ['a'] ∧
    (parse_error_diag_at ['a'] 0 0 []).range.start.line ≤ newline_count ['a'] :=
  ⟨(claim_C7_diagnostic_line_bounds ['a'] [] 0 0 [] (by decide) (by decide)).2.1,
   (claim_C7_diagnostic_line_bounds ['a'] [] 0 0 [] (by decide) (by decide)).2.2.2.1⟩

/-- Claim C7 counterexample: the document `"[\n"` has exactly 1 line and
ends with a newline, yet the parser reports the EOF parse error at line 2
(the position just past the trailing newline, as `reported_line` models),
so the pipeline's parse-error diagnostic has start line 1, which is not
strictly below the total line count — and the claim's
no-trailing-newline escape clause does not apply. -/
theorem claim_C7_counterexample :
    validate_liberally none
      (SerdeResult.err
        { line := reported_line ['[', '\n'] 2, column := 0, message := [] })
      ['[', '\n'] = some (Except.ok [parse_error_diag_at ['[', '\n'] 2 0 []]) ∧
    (parse_error_diag_at ['[', '\n'] 2 0 []).range.start.line = 1 ∧
    linesCount ['[', '\n'] = 1 ∧
    ¬ ((parse_error_diag_at ['[', '\n'] 2 0 []).range.start.line
        < linesCount ['[', '\n']) ∧
    (['[', '\n'] : List Char).getLast? = some '\n' := by
  refine ⟨rfl, rfl, by decide, by decide, by decide⟩
